import Mathlib

/-!
# Verification of the ignis-term relay Session Registry

Shallow embedding of `SessionRegistry` (relay server, session registry
module): the code → session map, the two reverse indices
(mac socket → session, browser socket → session), and the operations
`createSession`, `joinSession`, `removeSession`, `disconnectBrowser`,
`cleanupExpired`.

Modelling conventions:
* A `WebSocket` is identified by a natural number (`Socket`).
* JS `Map` is embedded as an association list with `Map.set` /
  `Map.get` / `Map.delete` semantics (`mapSet` updates an existing key
  in place and appends fresh keys at the end, matching insertion order).
* The JS maps `macToSession` / `browserToSession` store references to
  the shared, mutable session object.  A session's `code` field is
  immutable and the `sessions` map is keyed by it, so a reference is
  embedded as the session's code; dereferencing through `sessions`
  reproduces the shared-object semantics in every state where the
  reverse indices are not dangling (which holds in all states the
  theorems below quantify over).
* A JS timestamp (`Date.now()`, `expiresAt`) is a number that can be
  `Infinity`; it is embedded as `ETime` (a natural number or `inf`),
  with the comparison `now > expiresAt` embedded as `ETime.ltNow`.
* `crypto.randomUUID()` and `generateSessionCode()` are external
  sources of values; operations take the produced values (a session id,
  a list of drawn codes) as parameters.
-/

namespace IgnisTerm

/-- Identity of a `WebSocket` connection. -/
abbrev Socket := Nat

section MapModel

variable {α : Type _} {β : Type _} [DecidableEq α]

/-- JS `Map.get`: the value at the first entry with the given key. -/
def mapGet (m : List (α × β)) (k : α) : Option β :=
  match m with
  | [] => none
  | (k', v) :: rest => if k' = k then some v else mapGet rest k

/-- JS `Map.set`: update an existing key in place, else append at the end. -/
def mapSet (m : List (α × β)) (k : α) (v : β) : List (α × β) :=
  match m with
  | [] => [(k, v)]
  | (k', v') :: rest => if k' = k then (k, v) :: rest else (k', v') :: mapSet rest k v

/-- JS `Map.delete`: remove the entry with the given key. -/
def mapDelete (m : List (α × β)) (k : α) : List (α × β) :=
  m.filter (fun p => p.1 ≠ k)

/-- The keys of a map, in insertion order. -/
def mapKeys (m : List (α × β)) : List α :=
  m.map Prod.fst

end MapModel

/-- A JS timestamp: a finite number of milliseconds or `Infinity`
(`session.expiresAt = Infinity` after a successful join). -/
inductive ETime where
  | fin : Nat → ETime
  | inf : ETime
deriving DecidableEq, Repr

/-- The JS comparison `now > e` for a finite `now` against an `ETime`
(`Date.now() > session.expiresAt`); `now > Infinity` is always false. -/
def ETime.ltNow (now : Nat) : ETime → Bool
  | .fin n => n < now
  | .inf => false

/-- `Session` from the session registry: a paired session between Mac
and Browser clients. -/
structure Session where
  code : String
  sessionId : String
  mac : Option Socket
  browser : Option Socket
  createdAt : Nat
  expiresAt : ETime
deriving DecidableEq, Repr

/-- The error half of `JoinResult`. -/
inductive JoinError where
  | INVALID_CODE
  | EXPIRED_CODE
  | ALREADY_JOINED
deriving DecidableEq, Repr

/-- `JoinResult`: result of attempting to join a session. -/
inductive JoinResult where
  | ok (session : Session)
  | err (error : JoinError)
deriving DecidableEq, Repr

/-- The three maps owned by a `SessionRegistry` instance.  The reverse
indices store the session's (immutable) code, standing for the JS
reference to the session object. -/
structure SessionRegistry where
  sessions : List (String × Session)
  macToSession : List (Socket × String)
  browserToSession : List (Socket × String)
deriving DecidableEq, Repr

/-- A freshly constructed registry: all three maps empty. -/
def SessionRegistry.empty : SessionRegistry :=
  { sessions := [], macToSession := [], browserToSession := [] }

/-- Modelled from the spec: `SESSION_CODE_EXPIRY_MS` is imported from
`shared/constants.js`, which is not part of the available source; the
spec gives the unpaired-code TTL as 300 000 ms (5 minutes). -/
def SESSION_CODE_EXPIRY_MS : Nat := 300000

namespace SessionRegistry

/-- `getSession`: look up a session by its code; `null` if not found
(does not check expiry). -/
def getSession (st : SessionRegistry) (code : String) : Option Session :=
  mapGet st.sessions code

/-- `removeSession`: remove a session by code, cleaning up the reverse
index entries for its mac and browser sockets. -/
def removeSession (code : String) (st : SessionRegistry) : SessionRegistry :=
  match mapGet st.sessions code with
  | none => st
  | some session =>
    let st1 :=
      match session.mac with
      | some m => { st with macToSession := mapDelete st.macToSession m }
      | none => st
    let st2 :=
      match session.browser with
      | some b => { st1 with browserToSession := mapDelete st1.browserToSession b }
      | none => st1
    { st2 with sessions := mapDelete st2.sessions code }

/-- `joinSession`: attempt to join a session with a browser client.
Validates that the code exists, hasn't expired, and isn't already
joined; on success links the browser and disables expiry. -/
def joinSession (now : Nat) (code : String) (browserSocket : Socket)
    (st : SessionRegistry) : JoinResult × SessionRegistry :=
  match mapGet st.sessions code with
  | none => (.err .INVALID_CODE, st)
  | some session =>
    if session.expiresAt.ltNow now then
      (.err .EXPIRED_CODE, removeSession code st)
    else if session.browser.isSome then
      (.err .ALREADY_JOINED, st)
    else
      let session' := { session with browser := some browserSocket, expiresAt := .inf }
      (.ok session',
        { st with
          sessions := mapSet st.sessions code session'
          browserToSession := mapSet st.browserToSession browserSocket code })

/-- The `do { code = generateSessionCode(); } while (sessions.has(code))`
loop of `createSession`, with the successive outputs of
`generateSessionCode()` supplied as a list of draws: the loop returns
the first draw absent from the registry, and runs out (`none`) only if
every supplied draw collides — the source loop has no retry budget and
would keep drawing. -/
def genUniqueCode (st : SessionRegistry) : List String → Option String
  | [] => none
  | c :: rest => if (mapGet st.sessions c).isSome then genUniqueCode st rest else some c

/-- `createSession`: create a new session for a Mac client with a code
fresh for the registry.  `draws` are the successive outputs of
`generateSessionCode()` and `sid` the output of `crypto.randomUUID()`;
the result is `none` only when every draw collides (the source loop
would still be running). -/
def createSession (draws : List String) (sid : String) (now : Nat)
    (macSocket : Socket) (st : SessionRegistry) :
    Option (Session × SessionRegistry) :=
  match genUniqueCode st draws with
  | none => none
  | some code =>
    let session : Session :=
      { code := code, sessionId := sid, mac := some macSocket, browser := none,
        createdAt := now, expiresAt := .fin (now + SESSION_CODE_EXPIRY_MS) }
    some (session,
      { st with
        sessions := mapSet st.sessions code session
        macToSession := mapSet st.macToSession macSocket code })

/-- `disconnectBrowser`: disconnect a browser from its session without
removing the session; resets expiry to `now + SESSION_CODE_EXPIRY_MS`. -/
def disconnectBrowser (now : Nat) (socket : Socket) (st : SessionRegistry) :
    SessionRegistry :=
  match mapGet st.browserToSession socket with
  | none => st
  | some code =>
    let st1 :=
      match mapGet st.sessions code with
      | some session =>
        { st with
          sessions := mapSet st.sessions code
            { session with browser := none,
                           expiresAt := .fin (now + SESSION_CODE_EXPIRY_MS) } }
      | none => st
    { st1 with browserToSession := mapDelete st1.browserToSession socket }

/-- `cleanupExpired`: sweep the registry, removing every session whose
expiry is strictly in the past, and count the removals.  The JS `for`
loop iterates the live map but only ever deletes the entry it is
visiting, so it is equivalent to this fold over the entry list. -/
def cleanupExpired (now : Nat) (st : SessionRegistry) : Nat × SessionRegistry :=
  st.sessions.foldl
    (fun acc p =>
      if p.2.expiresAt.ltNow now then (acc.1 + 1, removeSession p.1 acc.2) else acc)
    (0, st)

/-- One step of the `cleanupExpired` loop body: count and remove the
visited entry when its expiry is strictly in the past. -/
def sweepStep (now : Nat) (acc : Nat × SessionRegistry)
    (p : String × Session) : Nat × SessionRegistry :=
  if p.2.expiresAt.ltNow now then (acc.1 + 1, removeSession p.1 acc.2) else acc

/-- The effect of one `cleanupExpired` step on the sessions map alone. -/
def delStep (now : Nat) (m : List (String × Session))
    (p : String × Session) : List (String × Session) :=
  if p.2.expiresAt.ltNow now then mapDelete m p.1 else m

end SessionRegistry

/-- The error half of a rejoin result. -/
inductive RejoinError where
  | NOT_FOUND
  | MAC_DISCONNECTED
  | ALREADY_JOINED
deriving DecidableEq, Repr

/-- Result of attempting to rejoin a session by session id. -/
inductive RejoinResult where
  | ok (session : Session)
  | err (error : RejoinError)
deriving DecidableEq, Repr

namespace SessionRegistry

/-- Modelled from the spec: the session registry source has no rejoin
operation (the relay router that handles `rejoin` messages is absent
from the available source, and the spec notes the session-id index is
implicit there).  Modelled from §4.2 of the spec: look the pair up by
`session_id` (linear scan); absence — the `INVALID_CODE`-equivalent —
returns `NOT_FOUND`; absence of the agent connection returns
`MAC_DISCONNECTED`; an already-set browser connection returns
`ALREADY_JOINED`; otherwise, as in join, set the browser connection,
insert the reverse index, and disable expiry. -/
def rejoinSession (sid : String) (browserSocket : Socket)
    (st : SessionRegistry) : RejoinResult × SessionRegistry :=
  match st.sessions.find? (fun p => p.2.sessionId == sid) with
  | none => (.err .NOT_FOUND, st)
  | some (code, session) =>
    if session.mac.isNone then
      (.err .MAC_DISCONNECTED, st)
    else if session.browser.isSome then
      (.err .ALREADY_JOINED, st)
    else
      let session' := { session with browser := some browserSocket, expiresAt := .inf }
      (.ok session',
        { st with
          sessions := mapSet st.sessions code session'
          browserToSession := mapSet st.browserToSession browserSocket code })

/-- Mutual consistency of the three maps of a registry:
* association-list keys are duplicate-free (JS `Map` keys are unique);
* a session stored under code `c` has `code = c`;
* a session's mac socket (when non-null) maps back to it in the mac
  reverse index, and likewise its browser socket;
* every reverse-index entry points to a session still present in the
  code map whose corresponding socket field points back at the entry;
* a session with a non-null browser has `expiresAt = Infinity`. -/
structure Inv (st : SessionRegistry) : Prop where
  sessionsNodup : (mapKeys st.sessions).Nodup
  macNodup : (mapKeys st.macToSession).Nodup
  browserNodup : (mapKeys st.browserToSession).Nodup
  codeCoherent : ∀ c s, mapGet st.sessions c = some s → s.code = c
  macIndex : ∀ c s m, mapGet st.sessions c = some s → s.mac = some m →
    mapGet st.macToSession m = some c
  browserIndex : ∀ c s b, mapGet st.sessions c = some s → s.browser = some b →
    mapGet st.browserToSession b = some c
  macBacked : ∀ m c, mapGet st.macToSession m = some c →
    ∃ s, mapGet st.sessions c = some s ∧ s.mac = some m
  browserBacked : ∀ b c, mapGet st.browserToSession b = some c →
    ∃ s, mapGet st.sessions c = some s ∧ s.browser = some b
  joinedNoExpiry : ∀ c s, mapGet st.sessions c = some s → s.browser ≠ none →
    s.expiresAt = ETime.inf

/-- Registry states reachable from the empty registry by the five
mutating operations.  The side conditions on `create` and `join` embed
the server's connection discipline: a `WebSocket` is handed to
`createSession` or `joinSession` at most once while still registered,
so the socket has no live reverse-index entry at that moment. -/
inductive Reachable : SessionRegistry → Prop where
  | empty : Reachable SessionRegistry.empty
  | create {st : SessionRegistry} {draws : List String} {sid : String} {now : Nat}
      {mac : Socket} {sess : Session} {st' : SessionRegistry} :
      Reachable st →
      mapGet st.macToSession mac = none →
      createSession draws sid now mac st = some (sess, st') →
      Reachable st'
  | join {st : SessionRegistry} {now : Nat} {code : String} {b : Socket} :
      Reachable st →
      mapGet st.browserToSession b = none →
      Reachable (joinSession now code b st).2
  | disconnect {st : SessionRegistry} {now : Nat} {b : Socket} :
      Reachable st →
      Reachable (disconnectBrowser now b st)
  | remove {st : SessionRegistry} {code : String} :
      Reachable st →
      Reachable (removeSession code st)
  | cleanup {st : SessionRegistry} {now : Nat} :
      Reachable st →
      Reachable (cleanupExpired now st).2

end SessionRegistry

/-- A demonstration session: freshly created at time 0, unpaired,
expiring at `SESSION_CODE_EXPIRY_MS`. -/
def demoSession : Session :=
  { code := "ABC234", sessionId := "S1", mac := some 1, browser := none,
    createdAt := 0, expiresAt := .fin 300000 }

/-- A registry holding exactly `demoSession`. -/
def demoRegistry : SessionRegistry :=
  { sessions := [("ABC234", demoSession)]
    macToSession := [(1, "ABC234")]
    browserToSession := [] }

/-- `demoSession` after browser 7 joined it. -/
def demoJoinedSession : Session :=
  { demoSession with browser := some 7, expiresAt := .inf }

/-- `demoRegistry` after browser 7 joined `demoSession`. -/
def demoJoinedRegistry : SessionRegistry :=
  { sessions := [("ABC234", demoJoinedSession)]
    macToSession := [(1, "ABC234")]
    browserToSession := [(7, "ABC234")] }

/-- A session whose agent has gone away (`mac = null`). -/
def demoOrphanSession : Session :=
  { code := "QQQ777", sessionId := "S2", mac := none, browser := none,
    createdAt := 0, expiresAt := .fin 300000 }

/-- A registry holding exactly `demoOrphanSession`. -/
def demoOrphanRegistry : SessionRegistry :=
  { sessions := [("QQQ777", demoOrphanSession)]
    macToSession := []
    browserToSession := [] }

/-- A session occupying the code `"AAAA22"`. -/
def satSession : Session :=
  { code := "AAAA22", sessionId := "S0", mac := some 0, browser := none,
    createdAt := 0, expiresAt := .fin 300000 }

/-- A registry in which every draw of the constant stream `"AAAA22"`
collides. -/
def satRegistry : SessionRegistry :=
  { sessions := [("AAAA22", satSession)]
    macToSession := [(0, "AAAA22")]
    browserToSession := [] }

/-! ## Association-list map lemmas -/

section MapLemmas

variable {α : Type _} {β : Type _} [DecidableEq α]

theorem mapGet_mapSet_self (m : List (α × β)) (k : α) (v : β) :
    mapGet (mapSet m k v) k = some v := by
  induction m with
  | nil => simp [mapSet, mapGet]
  | cons p rest ih =>
    by_cases h : p.1 = k
    · simp [mapSet, h, mapGet]
    · simp [mapSet, h, mapGet, ih]

theorem mapGet_mapSet_ne (m : List (α × β)) {k k' : α} (v : β) (h : k' ≠ k) :
    mapGet (mapSet m k v) k' = mapGet m k' := by
  have hkk : ¬ k = k' := fun hc => h hc.symm
  induction m with
  | nil => simp [mapSet, mapGet, hkk]
  | cons p rest ih =>
    by_cases hp : p.1 = k
    · subst hp
      simp [mapSet, mapGet, hkk]
    · simp only [mapSet, if_neg hp, mapGet]
      by_cases hp' : p.1 = k'
      · simp [hp']
      · simp [hp', ih]

theorem mapDelete_cons_self {p : α × β} {rest : List (α × β)} {k : α}
    (hp : p.1 = k) : mapDelete (p :: rest) k = mapDelete rest k := by
  simp [mapDelete, List.filter_cons, hp]

theorem mapDelete_cons_ne {p : α × β} {rest : List (α × β)} {k : α}
    (hp : p.1 ≠ k) : mapDelete (p :: rest) k = p :: mapDelete rest k := by
  simp [mapDelete, List.filter_cons, hp]

theorem mapGet_mapDelete_self (m : List (α × β)) (k : α) :
    mapGet (mapDelete m k) k = none := by
  induction m with
  | nil => rfl
  | cons p rest ih =>
    by_cases h : p.1 = k
    · rw [mapDelete_cons_self h]
      exact ih
    · rw [mapDelete_cons_ne h]
      simp [mapGet, h, ih]

theorem mapGet_mapDelete_ne (m : List (α × β)) {k k' : α} (h : k' ≠ k) :
    mapGet (mapDelete m k) k' = mapGet m k' := by
  induction m with
  | nil => rfl
  | cons p rest ih =>
    by_cases hp : p.1 = k
    · have hp' : ¬ p.1 = k' := fun hc => h (hc.symm.trans hp)
      rw [mapDelete_cons_self hp, ih]
      simp [mapGet, hp']
    · rw [mapDelete_cons_ne hp]
      by_cases hp' : p.1 = k'
      · simp [mapGet, hp']
      · simp [mapGet, hp', ih]

theorem mapGet_eq_none_iff (m : List (α × β)) (k : α) :
    mapGet m k = none ↔ k ∉ mapKeys m := by
  induction m with
  | nil => simp [mapGet, mapKeys]
  | cons p rest ih =>
    by_cases h : p.1 = k
    · simp [mapGet, h, mapKeys]
    · have h' : ¬ k = p.1 := fun hc => h hc.symm
      simp [mapGet, h, mapKeys, ih, h']

theorem mapGet_some_mem {m : List (α × β)} {k : α} {v : β}
    (h : mapGet m k = some v) : (k, v) ∈ m := by
  induction m with
  | nil => simp [mapGet] at h
  | cons p rest ih =>
    obtain ⟨k0, v0⟩ := p
    by_cases hp : k0 = k
    · subst hp
      simp only [mapGet, eq_self_iff_true, if_true, Option.some.injEq] at h
      subst h
      exact List.mem_cons_self _ _
    · simp only [mapGet, if_neg hp] at h
      exact List.mem_cons_of_mem _ (ih h)

theorem mapGet_of_mem_nodup {m : List (α × β)} {k : α} {v : β}
    (hnd : (mapKeys m).Nodup) (h : (k, v) ∈ m) : mapGet m k = some v := by
  induction m with
  | nil => simp at h
  | cons p rest ih =>
    simp only [mapKeys, List.map_cons, List.nodup_cons] at hnd
    rcases List.mem_cons.mp h with h1 | h1
    · subst h1
      simp [mapGet]
    · have hp : p.1 ≠ k := by
        intro hc
        exact hnd.1 (hc ▸ (List.mem_map.mpr ⟨(k, v), h1, rfl⟩))
      simp only [mapGet, hp, if_false]
      exact ih hnd.2 h1

theorem mapKeys_mapSet (m : List (α × β)) (k : α) (v : β) :
    mapKeys (mapSet m k v) =
      if k ∈ mapKeys m then mapKeys m else mapKeys m ++ [k] := by
  induction m with
  | nil => simp [mapSet, mapKeys]
  | cons p rest ih =>
    by_cases h : p.1 = k
    · simp [mapSet, h, mapKeys]
    · have h' : ¬ k = p.1 := fun hc => h hc.symm
      simp only [mapSet, if_neg h, mapKeys, List.map_cons] at ih ⊢
      rw [ih]
      by_cases hk : k ∈ List.map Prod.fst rest
      · simp [hk, h']
      · simp [hk, h']

theorem nodup_mapKeys_mapSet {m : List (α × β)} (k : α) (v : β)
    (hnd : (mapKeys m).Nodup) : (mapKeys (mapSet m k v)).Nodup := by
  rw [mapKeys_mapSet]
  by_cases h : k ∈ mapKeys m
  · simpa [h]
  · simp only [h, if_false]
    simpa [List.nodup_append] using ⟨hnd, h⟩

theorem mapDelete_sublist (m : List (α × β)) (k : α) :
    (mapDelete m k).Sublist m :=
  List.filter_sublist m

theorem nodup_mapKeys_mapDelete {m : List (α × β)} (k : α)
    (hnd : (mapKeys m).Nodup) : (mapKeys (mapDelete m k)).Nodup :=
  ((mapDelete_sublist m k).map Prod.fst).nodup hnd

theorem mapDelete_of_not_mem {m : List (α × β)} {k : α}
    (h : k ∉ mapKeys m) : mapDelete m k = m := by
  induction m with
  | nil => rfl
  | cons p rest ih =>
    simp only [mapKeys, List.map_cons, List.mem_cons] at h
    push_neg at h
    have hp : p.1 ≠ k := fun hc => h.1 hc.symm
    rw [mapDelete_cons_ne hp, ih (by simpa [mapKeys] using h.2)]

end MapLemmas

/-! ## Registry-level helper lemmas -/

open SessionRegistry

theorem removeSession_sessions (code : String) (st : SessionRegistry) :
    (removeSession code st).sessions = mapDelete st.sessions code := by
  unfold removeSession
  cases hm : mapGet st.sessions code with
  | none =>
    exact (mapDelete_of_not_mem ((mapGet_eq_none_iff _ _).mp hm)).symm
  | some s =>
    obtain ⟨c0, sid0, mac0, br0, ca0, ea0⟩ := s
    cases mac0 <;> cases br0 <;> rfl

theorem removeSession_macGet (code : String) (st : SessionRegistry)
    {s : Session} (hm : mapGet st.sessions code = some s) (m' : Socket) :
    mapGet (removeSession code st).macToSession m' =
      if s.mac = some m' then none else mapGet st.macToSession m' := by
  unfold removeSession
  rw [hm]
  obtain ⟨c0, sid0, mac0, br0, ca0, ea0⟩ := s
  cases mac0 with
  | none =>
    cases br0 <;> simp
  | some m0 =>
    cases br0 <;>
    · by_cases hmm : m0 = m'
      · subst hmm
        rw [if_pos rfl]
        exact mapGet_mapDelete_self _ _
      · rw [if_neg (by simp [hmm])]
        exact mapGet_mapDelete_ne _ (fun hc => hmm hc.symm)

theorem removeSession_browserGet (code : String) (st : SessionRegistry)
    {s : Session} (hm : mapGet st.sessions code = some s) (b' : Socket) :
    mapGet (removeSession code st).browserToSession b' =
      if s.browser = some b' then none else mapGet st.browserToSession b' := by
  unfold removeSession
  rw [hm]
  obtain ⟨c0, sid0, mac0, br0, ca0, ea0⟩ := s
  cases br0 with
  | none =>
    cases mac0 <;> simp
  | some b0 =>
    cases mac0 <;>
    · by_cases hbb : b0 = b'
      · subst hbb
        rw [if_pos rfl]
        exact mapGet_mapDelete_self _ _
      · rw [if_neg (by simp [hbb])]
        exact mapGet_mapDelete_ne _ (fun hc => hbb hc.symm)

theorem removeSession_mac_eq_or (code : String) (st : SessionRegistry) :
    (removeSession code st).macToSession = st.macToSession ∨
    ∃ m, (removeSession code st).macToSession = mapDelete st.macToSession m := by
  unfold removeSession
  cases hm : mapGet st.sessions code with
  | none => exact Or.inl rfl
  | some s =>
    obtain ⟨c0, sid0, mac0, br0, ca0, ea0⟩ := s
    cases mac0 with
    | none => cases br0 <;> exact Or.inl rfl
    | some m0 => cases br0 <;> exact Or.inr ⟨m0, rfl⟩

theorem removeSession_browser_eq_or (code : String) (st : SessionRegistry) :
    (removeSession code st).browserToSession = st.browserToSession ∨
    ∃ b, (removeSession code st).browserToSession = mapDelete st.browserToSession b := by
  unfold removeSession
  cases hm : mapGet st.sessions code with
  | none => exact Or.inl rfl
  | some s =>
    obtain ⟨c0, sid0, mac0, br0, ca0, ea0⟩ := s
    cases br0 with
    | none => cases mac0 <;> exact Or.inl rfl
    | some b0 => cases mac0 <;> exact Or.inr ⟨b0, rfl⟩

theorem genUniqueCode_fresh {st : SessionRegistry} {draws : List String}
    {c : String} (h : genUniqueCode st draws = some c) :
    mapGet st.sessions c = none := by
  induction draws with
  | nil => exact absurd h (by simp [genUniqueCode])
  | cons d rest ih =>
    by_cases hd : (mapGet st.sessions d).isSome
    · rw [genUniqueCode, if_pos hd] at h
      exact ih h
    · rw [genUniqueCode, if_neg hd] at h
      cases h
      exact Option.not_isSome_iff_eq_none.mp hd

/-! ## C1: join case analysis -/

/-- C1: for every registry state and every code, `joinSession` returns
`INVALID_CODE` when no session is stored under the code; returns
`EXPIRED_CODE` and removes the session when the stored session's expiry
has passed; returns `ALREADY_JOINED` when the stored session's browser
connection is already set; and otherwise succeeds, setting the
session's browser connection to the joining socket, inserting that
socket into the browser reverse index, and disabling expiry
(`expiresAt` becomes infinity). -/
theorem joinSession_cases (now : Nat) (code : String) (b : Socket)
    (st : SessionRegistry) :
    (mapGet st.sessions code = none →
      joinSession now code b st = (.err .INVALID_CODE, st)) ∧
    (∀ s, mapGet st.sessions code = some s → s.expiresAt.ltNow now = true →
      joinSession now code b st = (.err .EXPIRED_CODE, removeSession code st) ∧
      mapGet (joinSession now code b st).2.sessions code = none) ∧
    (∀ s, mapGet st.sessions code = some s → s.expiresAt.ltNow now = false →
      s.browser ≠ none →
      joinSession now code b st = (.err .ALREADY_JOINED, st)) ∧
    (∀ s, mapGet st.sessions code = some s → s.expiresAt.ltNow now = false →
      s.browser = none →
      joinSession now code b st =
        (.ok { s with browser := some b, expiresAt := .inf },
          { st with
            sessions := mapSet st.sessions code
              { s with browser := some b, expiresAt := .inf }
            browserToSession := mapSet st.browserToSession b code }) ∧
      mapGet (joinSession now code b st).2.sessions code =
        some { s with browser := some b, expiresAt := .inf } ∧
      mapGet (joinSession now code b st).2.browserToSession b = some code) := by
  refine ⟨?_, ?_, ?_, ?_⟩
  · intro h
    simp [joinSession, h]
  · intro s hs hexp
    have h1 : joinSession now code b st = (.err .EXPIRED_CODE, removeSession code st) := by
      simp [joinSession, hs, hexp]
    refine ⟨h1, ?_⟩
    rw [h1, removeSession_sessions]
    exact mapGet_mapDelete_self _ _
  · intro s hs hexp hbr
    have hb : s.browser.isSome = true := Option.isSome_iff_ne_none.mpr hbr
    simp [joinSession, hs, hexp, hb]
  · intro s hs hexp hbr
    have hb : s.browser.isSome = false := by simp [hbr]
    have h1 : joinSession now code b st =
        (.ok { s with browser := some b, expiresAt := .inf },
          { st with
            sessions := mapSet st.sessions code
              { s with browser := some b, expiresAt := .inf }
            browserToSession := mapSet st.browserToSession b code }) := by
      simp [joinSession, hs, hexp, hb]
    refine ⟨h1, ?_, ?_⟩
    · rw [h1]
      exact mapGet_mapSet_self _ _ _
    · rw [h1]
      exact mapGet_mapSet_self _ _ _

/-- C1 witness: the four branches of `joinSession_cases` at concrete
registries. -/
theorem joinSession_cases_witness :
    joinSession 50 "XXXXXX" 7 demoRegistry = (.err .INVALID_CODE, demoRegistry) ∧
    (joinSession 300001 "ABC234" 7 demoRegistry).1 = .err .EXPIRED_CODE ∧
    joinSession 50 "ABC234" 8 demoJoinedRegistry =
      (.err .ALREADY_JOINED, demoJoinedRegistry) ∧
    mapGet (joinSession 50 "ABC234" 7 demoRegistry).2.sessions "ABC234" =
      some demoJoinedSession := by
  refine ⟨?_, ?_, ?_, ?_⟩
  · exact (joinSession_cases 50 "XXXXXX" 7 demoRegistry).1 (by decide)
  · have h := ((joinSession_cases 300001 "ABC234" 7 demoRegistry).2.1 demoSession
      (by decide) (by decide)).1
    rw [h]
  · exact (joinSession_cases 50 "ABC234" 8 demoJoinedRegistry).2.2.1
      demoJoinedSession (by decide) (by decide) (by decide)
  · exact ((joinSession_cases 50 "ABC234" 7 demoRegistry).2.2.2 demoSession
      (by decide) (by decide) (by decide)).2.1

/-! ## C2: the expiry boundary is strict -/

/-- C2 counterexample: at the exact expiry instant
(`now = expiresAt = 300000`) the claim says join returns
`EXPIRED_CODE`, but the code's strict comparison `now > expiresAt`
makes the join succeed. -/
theorem join_at_exact_expiry_cex :
    (joinSession 300000 "ABC234" 7 demoRegistry).1 = .ok demoJoinedSession ∧
    (joinSession 300000 "ABC234" 7 demoRegistry).1 ≠ .err .EXPIRED_CODE := by
  decide

/-- C2 amended: for a stored session with finite expiry `e`, join
returns `EXPIRED_CODE` exactly when `now > e` (so at `now = e` it does
not); for every `now ≤ e` with the session unpaired, join succeeds. -/
theorem joinSession_expiry_strict (now e : Nat) (code : String) (b : Socket)
    (st : SessionRegistry) (s : Session)
    (hs : mapGet st.sessions code = some s) (he : s.expiresAt = .fin e) :
    ((joinSession now code b st).1 = .err .EXPIRED_CODE ↔ e < now) ∧
    (now ≤ e → s.browser = none →
      (joinSession now code b st).1 =
        .ok { s with browser := some b, expiresAt := .inf }) := by
  constructor
  · constructor
    · intro h
      by_contra hlt
      have hexp : s.expiresAt.ltNow now = false := by
        rw [he]
        simpa [ETime.ltNow] using hlt
      by_cases hbr : s.browser = none
      · have h1 := ((joinSession_cases now code b st).2.2.2 s hs hexp hbr).1
        rw [h1] at h
        exact absurd h (by simp)
      · have h1 := (joinSession_cases now code b st).2.2.1 s hs hexp hbr
        rw [h1] at h
        exact absurd h (by simp)
    · intro hlt
      have hexp : s.expiresAt.ltNow now = true := by
        rw [he]
        simpa [ETime.ltNow] using hlt
      rw [((joinSession_cases now code b st).2.1 s hs hexp).1]
  · intro hle hbr
    have hexp : s.expiresAt.ltNow now = false := by
      rw [he]
      simp [ETime.ltNow]
      omega
    rw [((joinSession_cases now code b st).2.2.2 s hs hexp hbr).1]

/-- C2 witness: the strict boundary at the concrete instant
`now = e = 300000` on `demoRegistry`. -/
theorem joinSession_expiry_strict_witness :
    ¬ ((joinSession 300000 "ABC234" 7 demoRegistry).1 = .err .EXPIRED_CODE) ∧
    (joinSession 300000 "ABC234" 7 demoRegistry).1 = .ok demoJoinedSession := by
  have h := joinSession_expiry_strict 300000 300000 "ABC234" 7 demoRegistry
    demoSession (by decide) (by decide)
  constructor
  · intro hc
    exact absurd (h.1.mp hc) (by decide)
  · exact h.2 (by decide) (by decide)

/-! ## C3: joinSession does not canonicalize its code argument -/

/-- C3 counterexample: the registry stores `"ABC234"`; joining with the
lowercase spelling `"abc234"` returns `INVALID_CODE` while the
uppercase spelling succeeds, so the two calls do not return the same
result — `joinSession` performs no uppercase canonicalization (the
browser client canonicalizes before sending). -/
theorem join_case_sensitive_cex :
    (joinSession 50 "abc234" 7 demoRegistry).1 = .err .INVALID_CODE ∧
    (joinSession 50 "ABC234" 7 demoRegistry).1 = .ok demoJoinedSession ∧
    joinSession 50 "abc234" 7 demoRegistry ≠ joinSession 50 "ABC234" 7 demoRegistry := by
  decide

/-- C3 amended: `joinSession` looks its code argument up verbatim: any
spelling absent from the registry map — in particular the lowercase
spelling of a registered uppercase code — is rejected with
`INVALID_CODE`, while the registered spelling (unpaired, unexpired)
succeeds, so the two spellings yield different results. -/
theorem joinSession_verbatim_lookup (now : Nat) (b : Socket)
    (st : SessionRegistry) (lower upper : String) (s : Session)
    (hlow : mapGet st.sessions lower = none)
    (hup : mapGet st.sessions upper = some s)
    (hexp : s.expiresAt.ltNow now = false) (hbr : s.browser = none) :
    (joinSession now lower b st).1 = .err .INVALID_CODE ∧
    (joinSession now upper b st).1 =
      .ok { s with browser := some b, expiresAt := .inf } ∧
    (joinSession now lower b st).1 ≠ (joinSession now upper b st).1 := by
  have h1 := (joinSession_cases now lower b st).1 hlow
  have h2 := ((joinSession_cases now upper b st).2.2.2 s hup hexp hbr).1
  refine ⟨by rw [h1], by rw [h2], ?_⟩
  rw [h1, h2]
  simp

/-- C3 witness: verbatim lookup at the concrete pair of spellings
`"abc234"` / `"ABC234"` on `demoRegistry`. -/
theorem joinSession_verbatim_lookup_witness :
    (joinSession 50 "abc234" 7 demoRegistry).1 = .err .INVALID_CODE ∧
    (joinSession 50 "ABC234" 7 demoRegistry).1 =
      .ok { demoSession with browser := some 7, expiresAt := .inf } ∧
    (joinSession 50 "abc234" 7 demoRegistry).1 ≠
      (joinSession 50 "ABC234" 7 demoRegistry).1 :=
  joinSession_verbatim_lookup 50 7 demoRegistry "abc234" "ABC234" demoSession
    (by decide) (by decide) (by decide) (by decide)

/-! ## C4: join then join -/

/-- C4: joining an unpaired, unexpired session succeeds, and any later
join on the same code returns `ALREADY_JOINED`, no matter how much time
has elapsed (the first join disabled expiry, so the second join can
never take the `EXPIRED_CODE` branch). -/
theorem join_then_join (now1 : Nat) (code : String) (b1 b2 : Socket)
    (st : SessionRegistry) (s : Session)
    (hs : mapGet st.sessions code = some s)
    (hexp : s.expiresAt.ltNow now1 = false) (hbr : s.browser = none) :
    (joinSession now1 code b1 st).1 =
      .ok { s with browser := some b1, expiresAt := .inf } ∧
    ∀ now2 : Nat,
      (joinSession now2 code b2 (joinSession now1 code b1 st).2).1 =
        .err .ALREADY_JOINED := by
  obtain ⟨h1, h2, _⟩ := (joinSession_cases now1 code b1 st).2.2.2 s hs hexp hbr
  refine ⟨by rw [h1], ?_⟩
  intro now2
  have hexp2 : ({ s with browser := some b1, expiresAt := ETime.inf } :
      Session).expiresAt.ltNow now2 = false := rfl
  have hbr2 : ({ s with browser := some b1, expiresAt := ETime.inf } :
      Session).browser ≠ none := by simp
  rw [(joinSession_cases now2 code b2 (joinSession now1 code b1 st).2).2.2.1
    { s with browser := some b1, expiresAt := ETime.inf } h2 hexp2 hbr2]

/-- C4 witness: join then join on `demoRegistry`, with an arbitrarily
late second call (`now2 = 10^9`). -/
theorem join_then_join_witness :
    (joinSession 50 "ABC234" 7 demoRegistry).1 = .ok demoJoinedSession ∧
    (joinSession 1000000000 "ABC234" 8
      (joinSession 50 "ABC234" 7 demoRegistry).2).1 = .err .ALREADY_JOINED := by
  have h := join_then_join 50 "ABC234" 7 8 demoRegistry demoSession
    (by decide) (by decide) (by decide)
  exact ⟨h.1, h.2 1000000000⟩

/-! ## C5: disconnectBrowser -/

/-- C5: after `disconnectBrowser` on the browser socket of a joined
session, that session's browser connection is null, its expiry is reset
to `now + 300000` ms (`SESSION_CODE_EXPIRY_MS`), the socket is removed
from the browser reverse index, and the session remains in the registry
under its code. -/
theorem disconnectBrowser_spec (now : Nat) (b : Socket)
    (st : SessionRegistry) (code : String) (s : Session)
    (hb : mapGet st.browserToSession b = some code)
    (hs : mapGet st.sessions code = some s)
    (_hbr : s.browser = some b) :
    mapGet (disconnectBrowser now b st).sessions code =
      some { s with browser := none, expiresAt := .fin (now + 300000) } ∧
    mapGet (disconnectBrowser now b st).browserToSession b = none := by
  have hstep : disconnectBrowser now b st =
      { st with
        sessions := mapSet st.sessions code
          { s with browser := none, expiresAt := .fin (now + SESSION_CODE_EXPIRY_MS) }
        browserToSession :=
          mapDelete (st.browserToSession) b } := by
    simp [disconnectBrowser, hb, hs]
  rw [hstep]
  constructor
  · exact mapGet_mapSet_self _ _ _
  · exact mapGet_mapDelete_self _ _

/-- C5 witness: disconnecting browser 7 from `demoJoinedRegistry` at
time 1000. -/
theorem disconnectBrowser_spec_witness :
    mapGet (disconnectBrowser 1000 7 demoJoinedRegistry).sessions "ABC234" =
      some { demoJoinedSession with
              browser := none
              expiresAt := .fin (1000 + 300000) } ∧
    mapGet (disconnectBrowser 1000 7 demoJoinedRegistry).browserToSession 7 =
      none :=
  disconnectBrowser_spec 1000 7 demoJoinedRegistry "ABC234" demoJoinedSession
    (by decide) (by decide) (by decide)

/-! ## C7: createSession postconditions -/

/-- C7: whenever `createSession` returns, the new session's code was
absent from the registry (so all codes remain pairwise distinct), its
browser connection is null, its expiry is `createdAt` plus the
configured code TTL, and it is inserted both into the code map and the
mac reverse index. -/
theorem createSession_spec (draws : List String) (sid : String) (now : Nat)
    (mac : Socket) (st : SessionRegistry) (s : Session)
    (st' : SessionRegistry)
    (h : createSession draws sid now mac st = some (s, st')) :
    mapGet st.sessions s.code = none ∧
    s.browser = none ∧
    s.createdAt = now ∧
    s.mac = some mac ∧
    s.sessionId = sid ∧
    s.expiresAt = .fin (s.createdAt + SESSION_CODE_EXPIRY_MS) ∧
    mapGet st'.sessions s.code = some s ∧
    mapGet st'.macToSession mac = some s.code ∧
    ((mapKeys st.sessions).Nodup → (mapKeys st'.sessions).Nodup) := by
  cases hg : genUniqueCode st draws with
  | none =>
    rw [createSession, hg] at h
    exact absurd h (by simp)
  | some c =>
    rw [createSession, hg] at h
    simp only [Option.some.injEq, Prod.mk.injEq] at h
    obtain ⟨hsess, hst⟩ := h
    subst hsess
    subst hst
    have hfresh : mapGet st.sessions c = none := genUniqueCode_fresh hg
    refine ⟨hfresh, rfl, rfl, rfl, rfl, rfl, ?_, ?_, ?_⟩
    · exact mapGet_mapSet_self _ _ _
    · exact mapGet_mapSet_self _ _ _
    · intro hnd
      exact nodup_mapKeys_mapSet _ _ hnd

/-- C7 witness: creating a session in the empty registry with the
single draw `"ABC234"` produces exactly `demoSession` and
`demoRegistry`. -/
theorem createSession_spec_witness :
    mapGet SessionRegistry.empty.sessions demoSession.code = none ∧
    demoSession.browser = none ∧
    demoSession.createdAt = 0 ∧
    demoSession.mac = some 1 ∧
    demoSession.sessionId = "S1" ∧
    demoSession.expiresAt = .fin (demoSession.createdAt + SESSION_CODE_EXPIRY_MS) ∧
    mapGet demoRegistry.sessions demoSession.code = some demoSession ∧
    mapGet demoRegistry.macToSession 1 = some demoSession.code ∧
    ((mapKeys SessionRegistry.empty.sessions).Nodup →
      (mapKeys demoRegistry.sessions).Nodup) :=
  createSession_spec ["ABC234"] "S1" 0 1 SessionRegistry.empty demoSession
    demoRegistry (by decide)

/-! ## C8: the code-generation loop has no retry budget -/

theorem genUniqueCode_replicate_collide (fuel : Nat) :
    genUniqueCode satRegistry (List.replicate fuel "AAAA22") = none := by
  induction fuel with
  | zero => rfl
  | succ n ih =>
    rw [List.replicate_succ, genUniqueCode, if_pos (by decide)]
    exact ih

/-- C8 counterexample: the claim asserts a fixed retry bound after
which the loop stops redrawing.  The source loop
`do ... while (sessions.has(code))` has no such bound: against a
registry occupying `"AAAA22"` and a draw stream that keeps producing
`"AAAA22"`, even a million redraws leave `createSession` still running
(and `genUniqueCode_replicate_collide` shows the same for every number
of redraws) — the operation loops indefinitely under collision, with no
saturation detection. -/
theorem createSession_budget_cex :
    createSession (List.replicate 1000000 "AAAA22") "S1" 0 1 satRegistry = none := by
  rw [createSession, genUniqueCode_replicate_collide 1000000]

/-- C8 amended: the loop has no retry budget — it keeps redrawing while
draws collide (returning nothing as long as every available draw is
taken), and terminates as soon as some draw is fresh, returning a code
absent from the registry. -/
theorem genUniqueCode_no_budget (st : SessionRegistry) (draws : List String) :
    ((∀ c ∈ draws, (mapGet st.sessions c).isSome = true) →
      genUniqueCode st draws = none) ∧
    ((∃ c ∈ draws, mapGet st.sessions c = none) →
      ∃ c, genUniqueCode st draws = some c ∧ mapGet st.sessions c = none) := by
  constructor
  · intro hall
    induction draws with
    | nil => rfl
    | cons d rest ih =>
      rw [genUniqueCode, if_pos (hall d (List.mem_cons_self _ _))]
      exact ih (fun c hc => hall c (List.mem_cons_of_mem _ hc))
  · intro hex
    induction draws with
    | nil => simp at hex
    | cons d rest ih =>
      by_cases hd : (mapGet st.sessions d).isSome
      · rw [genUniqueCode, if_pos hd]
        apply ih
        obtain ⟨c, hc, hcn⟩ := hex
        rcases List.mem_cons.mp hc with h1 | h1
        · subst h1
          rw [hcn] at hd
          exact absurd hd (by simp)
        · exact ⟨c, h1, hcn⟩
      · rw [genUniqueCode, if_neg hd]
        exact ⟨d, rfl, Option.not_isSome_iff_eq_none.mp hd⟩

/-- C8 witness: on `satRegistry`, the all-colliding draw list
`["AAAA22"]` yields nothing, while `["AAAA22", "ABC234"]` terminates
with the fresh code `"ABC234"`. -/
theorem genUniqueCode_no_budget_witness :
    genUniqueCode satRegistry ["AAAA22"] = none ∧
    ∃ c, genUniqueCode satRegistry ["AAAA22", "ABC234"] = some c ∧
      mapGet satRegistry.sessions c = none := by
  constructor
  · exact (genUniqueCode_no_budget satRegistry ["AAAA22"]).1 (by decide)
  · exact (genUniqueCode_no_budget satRegistry ["AAAA22", "ABC234"]).2
      ⟨"ABC234", by decide, by decide⟩

/-! ## C9: rejoin (modelled from the spec) -/

/-- C9: the rejoin operation keyed by session id returns, for every
browser connection, the session on success and otherwise exactly one of
`NOT_FOUND` (no pair with that session id), `MAC_DISCONNECTED` (the
pair's agent connection is absent), or `ALREADY_JOINED` (the pair
already has a browser connection); on success it applies the same
effects as join (browser set, reverse index inserted, expiry
disabled). -/
theorem rejoinSession_spec (sid : String) (b : Socket)
    (st : SessionRegistry) :
    (st.sessions.find? (fun p => p.2.sessionId == sid) = none →
      rejoinSession sid b st = (.err .NOT_FOUND, st)) ∧
    (∀ c s, st.sessions.find? (fun p => p.2.sessionId == sid) = some (c, s) →
      s.mac = none → rejoinSession sid b st = (.err .MAC_DISCONNECTED, st)) ∧
    (∀ c s, st.sessions.find? (fun p => p.2.sessionId == sid) = some (c, s) →
      s.mac ≠ none → s.browser ≠ none →
      rejoinSession sid b st = (.err .ALREADY_JOINED, st)) ∧
    (∀ c s, st.sessions.find? (fun p => p.2.sessionId == sid) = some (c, s) →
      s.mac ≠ none → s.browser = none →
      s.sessionId = sid ∧
      rejoinSession sid b st =
        (.ok { s with browser := some b, expiresAt := .inf },
          { st with
            sessions := mapSet st.sessions c
              { s with browser := some b, expiresAt := .inf }
            browserToSession := mapSet st.browserToSession b c })) := by
  refine ⟨?_, ?_, ?_, ?_⟩
  · intro h
    simp [rejoinSession, h]
  · intro c s h hmac
    have hm : s.mac.isNone = true := by simp [hmac]
    simp [rejoinSession, h, hm]
  · intro c s h hmac hbr
    have hm : s.mac.isNone = false := by
      cases hmc : s.mac with
      | none => exact absurd hmc hmac
      | some v => rfl
    have hb : s.browser.isSome = true := Option.isSome_iff_ne_none.mpr hbr
    simp [rejoinSession, h, hm, hb]
  · intro c s h hmac hbr
    have hm : s.mac.isNone = false := by
      cases hmc : s.mac with
      | none => exact absurd hmc hmac
      | some v => rfl
    have hb : s.browser.isSome = false := by simp [hbr]
    have hsid : (s.sessionId == sid) = true := by
      have := List.find?_some h
      simpa using this
    refine ⟨by simpa using hsid, ?_⟩
    simp [rejoinSession, h, hm, hb]

/-- C9 witness: the four rejoin outcomes at concrete registries. -/
theorem rejoinSession_spec_witness :
    rejoinSession "S9" 7 demoRegistry = (.err .NOT_FOUND, demoRegistry) ∧
    rejoinSession "S2" 7 demoOrphanRegistry =
      (.err .MAC_DISCONNECTED, demoOrphanRegistry) ∧
    rejoinSession "S1" 8 demoJoinedRegistry =
      (.err .ALREADY_JOINED, demoJoinedRegistry) ∧
    (rejoinSession "S1" 7 demoRegistry).1 = .ok demoJoinedSession := by
  refine ⟨?_, ?_, ?_, ?_⟩
  · exact (rejoinSession_spec "S9" 7 demoRegistry).1 (by decide)
  · exact (rejoinSession_spec "S2" 7 demoOrphanRegistry).2.1 "QQQ777"
      demoOrphanSession (by decide) (by decide)
  · exact (rejoinSession_spec "S1" 8 demoJoinedRegistry).2.2.1 "ABC234"
      demoJoinedSession (by decide) (by decide) (by decide)
  · have h := ((rejoinSession_spec "S1" 7 demoRegistry).2.2.2 "ABC234"
      demoSession (by decide) (by decide) (by decide)).2
    rw [h]
    rfl

/-! ## C6: the expiry sweep -/

theorem cleanupExpired_eq_foldl (now : Nat) (st : SessionRegistry) :
    cleanupExpired now st = st.sessions.foldl (sweepStep now) (0, st) := rfl

theorem sweep_fold_sessions (now : Nat) (l : List (String × Session)) :
    ∀ (k : Nat) (st : SessionRegistry),
      ((l.foldl (sweepStep now) (k, st)).2).sessions =
        l.foldl (delStep now) st.sessions := by
  induction l with
  | nil =>
    intro k st
    rfl
  | cons p rest ih =>
    intro k st
    rw [List.foldl_cons, List.foldl_cons]
    by_cases hp : p.2.expiresAt.ltNow now
    · rw [show sweepStep now (k, st) p = (k + 1, removeSession p.1 st) from by
        simp [sweepStep, hp]]
      rw [show delStep now st.sessions p = mapDelete st.sessions p.1 from by
        simp [delStep, hp]]
      rw [ih (k + 1) (removeSession p.1 st), removeSession_sessions]
    · rw [show sweepStep now (k, st) p = (k, st) from by simp [sweepStep, hp]]
      rw [show delStep now st.sessions p = st.sessions from by simp [delStep, hp]]
      exact ih k st

theorem sweep_fold_count (now : Nat) (l : List (String × Session)) :
    ∀ (k : Nat) (st : SessionRegistry),
      (l.foldl (sweepStep now) (k, st)).1 =
        k + (l.filter (fun p => p.2.expiresAt.ltNow now)).length := by
  induction l with
  | nil =>
    intro k st
    simp
  | cons p rest ih =>
    intro k st
    rw [List.foldl_cons, List.filter_cons]
    by_cases hp : p.2.expiresAt.ltNow now
    · rw [show sweepStep now (k, st) p = (k + 1, removeSession p.1 st) from by
        simp [sweepStep, hp]]
      rw [ih (k + 1) (removeSession p.1 st), if_pos hp]
      simp only [List.length_cons]
      omega
    · rw [show sweepStep now (k, st) p = (k, st) from by simp [sweepStep, hp]]
      rw [ih k st, if_neg hp]

theorem delChain_none (now : Nat) (l : List (String × Session)) :
    ∀ (m : List (String × Session)) (c : String), mapGet m c = none →
      mapGet (l.foldl (delStep now) m) c = none := by
  induction l with
  | nil =>
    intro m c h
    exact h
  | cons p rest ih =>
    intro m c h
    rw [List.foldl_cons]
    apply ih
    unfold delStep
    by_cases hp : p.2.expiresAt.ltNow now
    · rw [if_pos hp]
      by_cases hc : c = p.1
      · subst hc
        exact mapGet_mapDelete_self _ _
      · rw [mapGet_mapDelete_ne _ hc]
        exact h
    · rw [if_neg hp]
      exact h

theorem delChain_kept (now : Nat) (l : List (String × Session)) :
    ∀ (m : List (String × Session)) (c : String),
      (∀ p ∈ l, p.2.expiresAt.ltNow now = true → p.1 ≠ c) →
      mapGet (l.foldl (delStep now) m) c = mapGet m c := by
  induction l with
  | nil =>
    intro m c _
    rfl
  | cons p rest ih =>
    intro m c hl
    rw [List.foldl_cons]
    rw [ih _ _ (fun q hq => hl q (List.mem_cons_of_mem _ hq))]
    unfold delStep
    by_cases hp : p.2.expiresAt.ltNow now
    · rw [if_pos hp]
      exact mapGet_mapDelete_ne _
        (fun hc => hl p (List.mem_cons_self _ _) hp hc.symm)
    · rw [if_neg hp]

theorem delChain_removed (now : Nat) (l : List (String × Session)) :
    ∀ (m : List (String × Session)) (c : String) (s : Session),
      (c, s) ∈ l → s.expiresAt.ltNow now = true →
      mapGet (l.foldl (delStep now) m) c = none := by
  induction l with
  | nil =>
    intro m c s h _
    simp at h
  | cons p rest ih =>
    intro m c s hmem hexp
    rw [List.foldl_cons]
    rcases List.mem_cons.mp hmem with h1 | h1
    · apply delChain_none
      rw [← h1]
      unfold delStep
      rw [if_pos (by simpa using hexp)]
      exact mapGet_mapDelete_self _ _
    · exact ih _ _ _ h1 hexp

/-- C6: `cleanupExpired` removes from the registry exactly the sessions
whose browser connection is null and whose expiry is in the past,
leaves every other session untouched, and returns the number of
sessions it removed.  The hypothesis is the joined-sessions-never-
expire invariant, which every reachable registry state satisfies: a
session with a non-null browser has `expiresAt = Infinity`. -/
theorem cleanupExpired_spec (now : Nat) (st : SessionRegistry)
    (hnd : (mapKeys st.sessions).Nodup)
    (hinv : ∀ c s, mapGet st.sessions c = some s → s.browser ≠ none →
      s.expiresAt = ETime.inf) :
    (cleanupExpired now st).1 =
      (st.sessions.filter
        (fun p => decide (p.2.browser = none) && p.2.expiresAt.ltNow now)).length ∧
    (∀ c s, mapGet st.sessions c = some s → s.browser = none →
      s.expiresAt.ltNow now = true →
      mapGet (cleanupExpired now st).2.sessions c = none) ∧
    (∀ c s, mapGet st.sessions c = some s →
      ¬(s.browser = none ∧ s.expiresAt.ltNow now = true) →
      mapGet (cleanupExpired now st).2.sessions c = some s) ∧
    (∀ c, mapGet st.sessions c = none →
      mapGet (cleanupExpired now st).2.sessions c = none) := by
  have hsess : (cleanupExpired now st).2.sessions =
      st.sessions.foldl (delStep now) st.sessions := by
    rw [cleanupExpired_eq_foldl]
    exact sweep_fold_sessions now st.sessions 0 st
  refine ⟨?_, ?_, ?_, ?_⟩
  · rw [cleanupExpired_eq_foldl]
    rw [show (st.sessions.foldl (sweepStep now) (0, st)).1 =
        0 + (st.sessions.filter (fun p => p.2.expiresAt.ltNow now)).length from
      sweep_fold_count now st.sessions 0 st]
    rw [Nat.zero_add]
    congr 1
    apply List.filter_congr
    intro p hp
    by_cases hb : p.2.browser = none
    · simp [hb]
    · have hmp : mapGet st.sessions p.1 = some p.2 :=
        mapGet_of_mem_nodup hnd (by exact hp)
      have hinf := hinv p.1 p.2 hmp hb
      simp [hb, hinf, ETime.ltNow]
  · intro c s hm hbr hexp
    rw [hsess]
    exact delChain_removed now st.sessions st.sessions c s (mapGet_some_mem hm) hexp
  · intro c s hm hne
    rw [hsess]
    rw [delChain_kept now st.sessions st.sessions c ?_]
    · exact hm
    · intro p hp hexp hpc
      have hmp : mapGet st.sessions p.1 = some p.2 :=
        mapGet_of_mem_nodup hnd (by exact hp)
      rw [hpc, hm] at hmp
      have hps : p.2 = s := by
        injection hmp.symm
      rw [hps] at hexp
      by_cases hb : s.browser = none
      · exact hne ⟨hb, hexp⟩
      · have hinf := hinv c s hm hb
        rw [hinf] at hexp
        exact absurd hexp (by simp [ETime.ltNow])
  · intro c hm
    rw [hsess]
    exact delChain_none now st.sessions st.sessions c hm

/-- C6 witness: sweeping `demoRegistry` at time 400000 removes its one
expired unpaired session, counts one removal, and sweeping
`demoJoinedRegistry` (joined, expiry disabled) at the same time removes
nothing. -/
theorem cleanupExpired_spec_witness :
    (cleanupExpired 400000 demoRegistry).1 = 1 ∧
    mapGet (cleanupExpired 400000 demoRegistry).2.sessions "ABC234" = none ∧
    (cleanupExpired 400000 demoJoinedRegistry).1 = 0 ∧
    mapGet (cleanupExpired 400000 demoJoinedRegistry).2.sessions "ABC234" =
      some demoJoinedSession := by
  have hinv1 : ∀ c s, mapGet demoRegistry.sessions c = some s →
      s.browser ≠ none → s.expiresAt = ETime.inf := by
    intro c s hm hbr
    have he : mapGet demoRegistry.sessions c =
        if "ABC234" = c then some demoSession else none := rfl
    rw [he] at hm
    by_cases hc : ("ABC234" : String) = c
    · rw [if_pos hc] at hm
      injection hm with hm2
      rw [← hm2] at hbr
      exact absurd rfl hbr
    · rw [if_neg hc] at hm
      exact absurd hm (by simp)
  have hinv2 : ∀ c s, mapGet demoJoinedRegistry.sessions c = some s →
      s.browser ≠ none → s.expiresAt = ETime.inf := by
    intro c s hm _
    have he : mapGet demoJoinedRegistry.sessions c =
        if "ABC234" = c then some demoJoinedSession else none := rfl
    rw [he] at hm
    by_cases hc : ("ABC234" : String) = c
    · rw [if_pos hc] at hm
      injection hm with hm2
      rw [← hm2]
      rfl
    · rw [if_neg hc] at hm
      exact absurd hm (by simp)
  have h1 := cleanupExpired_spec 400000 demoRegistry (by decide) hinv1
  have h2 := cleanupExpired_spec 400000 demoJoinedRegistry (by decide) hinv2
  refine ⟨?_, ?_, ?_, ?_⟩
  · rw [h1.1]
    decide
  · exact h1.2.1 "ABC234" demoSession (by decide) (by decide) (by decide)
  · rw [h2.1]
    decide
  · exact h2.2.2.1 "ABC234" demoJoinedSession (by decide) (by decide)

/-! ## C10: mutual consistency of the three maps -/

theorem inv_empty : Inv SessionRegistry.empty where
  sessionsNodup := List.nodup_nil
  macNodup := List.nodup_nil
  browserNodup := List.nodup_nil
  codeCoherent := fun _ _ h => Option.noConfusion h
  macIndex := fun _ _ _ h => Option.noConfusion h
  browserIndex := fun _ _ _ h => Option.noConfusion h
  macBacked := fun _ _ h => Option.noConfusion h
  browserBacked := fun _ _ h => Option.noConfusion h
  joinedNoExpiry := fun _ _ h => Option.noConfusion h

theorem inv_removeSession {st : SessionRegistry} (h : Inv st)
    (code : String) : Inv (removeSession code st) := by
  cases hm : mapGet st.sessions code with
  | none =>
    have hid : removeSession code st = st := by
      unfold removeSession
      rw [hm]
    rw [hid]
    exact h
  | some s =>
    have hsget : ∀ c', mapGet (removeSession code st).sessions c' =
        if c' = code then none else mapGet st.sessions c' := by
      intro c'
      rw [removeSession_sessions]
      by_cases hc : c' = code
      · subst hc
        rw [if_pos rfl]
        exact mapGet_mapDelete_self _ _
      · rw [if_neg hc]
        exact mapGet_mapDelete_ne _ hc
    have hmget : ∀ m', mapGet (removeSession code st).macToSession m' =
        if s.mac = some m' then none else mapGet st.macToSession m' :=
      removeSession_macGet code st hm
    have hbget : ∀ b', mapGet (removeSession code st).browserToSession b' =
        if s.browser = some b' then none else mapGet st.browserToSession b' :=
      removeSession_browserGet code st hm
    refine ⟨?_, ?_, ?_, ?_, ?_, ?_, ?_, ?_, ?_⟩
    · rw [removeSession_sessions]
      exact nodup_mapKeys_mapDelete _ h.sessionsNodup
    · rcases removeSession_mac_eq_or code st with he | ⟨m0, he⟩
      · rw [he]
        exact h.macNodup
      · rw [he]
        exact nodup_mapKeys_mapDelete _ h.macNodup
    · rcases removeSession_browser_eq_or code st with he | ⟨b0, he⟩
      · rw [he]
        exact h.browserNodup
      · rw [he]
        exact nodup_mapKeys_mapDelete _ h.browserNodup
    · intro c' s' hs'
      rw [hsget c'] at hs'
      by_cases hc : c' = code
      · rw [if_pos hc] at hs'
        exact absurd hs' (by simp)
      · rw [if_neg hc] at hs'
        exact h.codeCoherent c' s' hs'
    · intro c' s' m' hs' hm'
      rw [hsget c'] at hs'
      by_cases hc : c' = code
      · rw [if_pos hc] at hs'
        exact absurd hs' (by simp)
      · rw [if_neg hc] at hs'
        rw [hmget m']
        by_cases hsm : s.mac = some m'
        · have h1 := h.macIndex code s m' hm hsm
          have h2 := h.macIndex c' s' m' hs' hm'
          rw [h1] at h2
          injection h2 with h3
          exact absurd h3.symm hc
        · rw [if_neg hsm]
          exact h.macIndex c' s' m' hs' hm'
    · intro c' s' b' hs' hb'
      rw [hsget c'] at hs'
      by_cases hc : c' = code
      · rw [if_pos hc] at hs'
        exact absurd hs' (by simp)
      · rw [if_neg hc] at hs'
        rw [hbget b']
        by_cases hsb : s.browser = some b'
        · have h1 := h.browserIndex code s b' hm hsb
          have h2 := h.browserIndex c' s' b' hs' hb'
          rw [h1] at h2
          injection h2 with h3
          exact absurd h3.symm hc
        · rw [if_neg hsb]
          exact h.browserIndex c' s' b' hs' hb'
    · intro m' c' hmge
      rw [hmget m'] at hmge
      by_cases hsm : s.mac = some m'
      · rw [if_pos hsm] at hmge
        exact absurd hmge (by simp)
      · rw [if_neg hsm] at hmge
        obtain ⟨s2, hs2, hs2m⟩ := h.macBacked m' c' hmge
        by_cases hc : c' = code
        · subst hc
          have hss : s = s2 := by
            rw [hm] at hs2
            injection hs2
          rw [← hss] at hs2m
          exact absurd hs2m hsm
        · refine ⟨s2, ?_, hs2m⟩
          rw [hsget c', if_neg hc]
          exact hs2
    · intro b' c' hbge
      rw [hbget b'] at hbge
      by_cases hsb : s.browser = some b'
      · rw [if_pos hsb] at hbge
        exact absurd hbge (by simp)
      · rw [if_neg hsb] at hbge
        obtain ⟨s2, hs2, hs2b⟩ := h.browserBacked b' c' hbge
        by_cases hc : c' = code
        · subst hc
          have hss : s = s2 := by
            rw [hm] at hs2
            injection hs2
          rw [← hss] at hs2b
          exact absurd hs2b hsb
        · refine ⟨s2, ?_, hs2b⟩
          rw [hsget c', if_neg hc]
          exact hs2
    · intro c' s' hs' hbr
      rw [hsget c'] at hs'
      by_cases hc : c' = code
      · rw [if_pos hc] at hs'
        exact absurd hs' (by simp)
      · rw [if_neg hc] at hs'
        exact h.joinedNoExpiry c' s' hs' hbr

theorem mapGet_mapSet {α : Type _} {β : Type _} [DecidableEq α]
    (m : List (α × β)) (k k' : α) (v : β) :
    mapGet (mapSet m k v) k' = if k' = k then some v else mapGet m k' := by
  by_cases h : k' = k
  · subst h
    rw [if_pos rfl]
    exact mapGet_mapSet_self _ _ _
  · rw [if_neg h]
    exact mapGet_mapSet_ne _ _ h

theorem inv_createSession {st : SessionRegistry} (h : Inv st)
    {draws : List String} {sid : String} {now : Nat} {mac : Socket}
    {sess : Session} {st' : SessionRegistry}
    (hfresh : mapGet st.macToSession mac = none)
    (hc : createSession draws sid now mac st = some (sess, st')) :
    Inv st' := by
  cases hg : genUniqueCode st draws with
  | none =>
    rw [createSession, hg] at hc
    exact absurd hc (by simp)
  | some code =>
    rw [createSession, hg] at hc
    simp only [Option.some.injEq, Prod.mk.injEq] at hc
    obtain ⟨hsess, hst⟩ := hc
    subst hsess
    subst hst
    have hcf : mapGet st.sessions code = none := genUniqueCode_fresh hg
    refine ⟨?_, ?_, ?_, ?_, ?_, ?_, ?_, ?_, ?_⟩
    · exact nodup_mapKeys_mapSet _ _ h.sessionsNodup
    · exact nodup_mapKeys_mapSet _ _ h.macNodup
    · exact h.browserNodup
    · intro c' s' hs'
      rw [mapGet_mapSet] at hs'
      by_cases hcc : c' = code
      · rw [if_pos hcc] at hs'
        injection hs' with h2
        rw [← h2]
        exact hcc.symm
      · rw [if_neg hcc] at hs'
        exact h.codeCoherent c' s' hs'
    · intro c' s' m' hs' hm'
      rw [mapGet_mapSet] at hs'
      by_cases hcc : c' = code
      · rw [if_pos hcc] at hs'
        injection hs' with h2
        rw [← h2] at hm'
        have hm2 : some mac = some m' := hm'
        injection hm2 with hmm
        rw [mapGet_mapSet, if_pos hmm.symm, hcc]
      · rw [if_neg hcc] at hs'
        have hold := h.macIndex c' s' m' hs' hm'
        rw [mapGet_mapSet]
        by_cases hmm : m' = mac
        · rw [hmm] at hold
          rw [hfresh] at hold
          exact absurd hold (by simp)
        · rw [if_neg hmm]
          exact hold
    · intro c' s' b' hs' hb'
      rw [mapGet_mapSet] at hs'
      by_cases hcc : c' = code
      · rw [if_pos hcc] at hs'
        injection hs' with h2
        rw [← h2] at hb'
        have hb2 : (none : Option Socket) = some b' := hb'
        exact absurd hb2 (by simp)
      · rw [if_neg hcc] at hs'
        exact h.browserIndex c' s' b' hs' hb'
    · intro m' c' hmge
      have hmge2 : mapGet (mapSet st.macToSession mac code) m' = some c' := hmge
      rw [mapGet_mapSet] at hmge2
      by_cases hmm : m' = mac
      · rw [if_pos hmm] at hmge2
        injection hmge2 with h2
        refine ⟨{ code := code, sessionId := sid, mac := some mac, browser := none,
                  createdAt := now,
                  expiresAt := .fin (now + SESSION_CODE_EXPIRY_MS) }, ?_, ?_⟩
        · rw [← h2]
          exact mapGet_mapSet_self _ _ _
        · rw [hmm]
      · rw [if_neg hmm] at hmge2
        obtain ⟨s2, hs2, hs2m⟩ := h.macBacked m' c' hmge2
        by_cases hcc : c' = code
        · rw [hcc, hcf] at hs2
          exact absurd hs2 (by simp)
        · refine ⟨s2, ?_, hs2m⟩
          rw [mapGet_mapSet, if_neg hcc]
          exact hs2
    · intro b' c' hbge
      have hbge2 : mapGet st.browserToSession b' = some c' := hbge
      obtain ⟨s2, hs2, hs2b⟩ := h.browserBacked b' c' hbge2
      by_cases hcc : c' = code
      · rw [hcc, hcf] at hs2
        exact absurd hs2 (by simp)
      · refine ⟨s2, ?_, hs2b⟩
        rw [mapGet_mapSet, if_neg hcc]
        exact hs2
    · intro c' s' hs' hbr
      rw [mapGet_mapSet] at hs'
      by_cases hcc : c' = code
      · rw [if_pos hcc] at hs'
        injection hs' with h2
        rw [← h2] at hbr
        exact absurd rfl hbr
      · rw [if_neg hcc] at hs'
        exact h.joinedNoExpiry c' s' hs' hbr

theorem inv_joinSession {st : SessionRegistry} (h : Inv st)
    (now : Nat) (code : String) (b : Socket)
    (hfresh : mapGet st.browserToSession b = none) :
    Inv (joinSession now code b st).2 := by
  cases hm : mapGet st.sessions code with
  | none =>
    rw [(joinSession_cases now code b st).1 hm]
    exact h
  | some s =>
    cases hexp : s.expiresAt.ltNow now with
    | true =>
      rw [((joinSession_cases now code b st).2.1 s hm hexp).1]
      exact inv_removeSession h code
    | false =>
      by_cases hbr : s.browser = none
      · rw [((joinSession_cases now code b st).2.2.2 s hm hexp hbr).1]
        refine ⟨?_, ?_, ?_, ?_, ?_, ?_, ?_, ?_, ?_⟩
        · exact nodup_mapKeys_mapSet _ _ h.sessionsNodup
        · exact h.macNodup
        · exact nodup_mapKeys_mapSet _ _ h.browserNodup
        · intro c' s' hs'
          rw [mapGet_mapSet] at hs'
          by_cases hcc : c' = code
          · rw [if_pos hcc] at hs'
            injection hs' with h2
            rw [← h2, hcc]
            exact h.codeCoherent code s hm
          · rw [if_neg hcc] at hs'
            exact h.codeCoherent c' s' hs'
        · intro c' s' m' hs' hm'
          rw [mapGet_mapSet] at hs'
          by_cases hcc : c' = code
          · rw [if_pos hcc] at hs'
            injection hs' with h2
            rw [← h2] at hm'
            have hm2 : s.mac = some m' := hm'
            rw [hcc]
            exact h.macIndex code s m' hm hm2
          · rw [if_neg hcc] at hs'
            exact h.macIndex c' s' m' hs' hm'
        · intro c' s' b' hs' hb'
          rw [mapGet_mapSet] at hs'
          rw [mapGet_mapSet]
          by_cases hcc : c' = code
          · rw [if_pos hcc] at hs'
            injection hs' with h2
            rw [← h2] at hb'
            have hb2 : some b = some b' := hb'
            injection hb2 with hbb
            rw [if_pos hbb.symm, hcc]
          · rw [if_neg hcc] at hs'
            have hold := h.browserIndex c' s' b' hs' hb'
            by_cases hbb : b' = b
            · rw [hbb, hfresh] at hold
              exact absurd hold (by simp)
            · rw [if_neg hbb]
              exact hold
        · intro m' c' hmge
          have hmge2 : mapGet st.macToSession m' = some c' := hmge
          obtain ⟨s2, hs2, hs2m⟩ := h.macBacked m' c' hmge2
          by_cases hcc : c' = code
          · subst hcc
            have hss : s = s2 := by
              rw [hm] at hs2
              injection hs2
            refine ⟨{ s with browser := some b, expiresAt := .inf }, ?_, ?_⟩
            · exact mapGet_mapSet_self _ _ _
            · rw [hss]
              exact hs2m
          · refine ⟨s2, ?_, hs2m⟩
            rw [mapGet_mapSet, if_neg hcc]
            exact hs2
        · intro b' c' hbge
          rw [mapGet_mapSet] at hbge
          by_cases hbb : b' = b
          · rw [if_pos hbb] at hbge
            injection hbge with h2
            refine ⟨{ s with browser := some b, expiresAt := .inf }, ?_, ?_⟩
            · rw [← h2]
              exact mapGet_mapSet_self _ _ _
            · rw [hbb]
          · rw [if_neg hbb] at hbge
            obtain ⟨s2, hs2, hs2b⟩ := h.browserBacked b' c' hbge
            by_cases hcc : c' = code
            · subst hcc
              have hss : s = s2 := by
                rw [hm] at hs2
                injection hs2
              rw [← hss] at hs2b
              rw [hbr] at hs2b
              exact absurd hs2b (by simp)
            · refine ⟨s2, ?_, hs2b⟩
              rw [mapGet_mapSet, if_neg hcc]
              exact hs2
        · intro c' s' hs' hbr'
          rw [mapGet_mapSet] at hs'
          by_cases hcc : c' = code
          · rw [if_pos hcc] at hs'
            injection hs' with h2
            rw [← h2]
          · rw [if_neg hcc] at hs'
            exact h.joinedNoExpiry c' s' hs' hbr'
      · rw [(joinSession_cases now code b st).2.2.1 s hm hexp hbr]
        exact h

theorem inv_disconnectBrowser {st : SessionRegistry} (h : Inv st)
    (now : Nat) (b : Socket) : Inv (disconnectBrowser now b st) := by
  cases hbg : mapGet st.browserToSession b with
  | none =>
    have hid : disconnectBrowser now b st = st := by
      unfold disconnectBrowser
      rw [hbg]
    rw [hid]
    exact h
  | some code =>
    obtain ⟨s, hs, hsb⟩ := h.browserBacked b code hbg
    have heq : disconnectBrowser now b st =
        { st with
          sessions := mapSet st.sessions code
            { s with browser := none,
                     expiresAt := .fin (now + SESSION_CODE_EXPIRY_MS) }
          browserToSession := mapDelete st.browserToSession b } := by
      unfold disconnectBrowser
      simp only [hbg, hs]
    rw [heq]
    refine ⟨?_, ?_, ?_, ?_, ?_, ?_, ?_, ?_, ?_⟩
    · exact nodup_mapKeys_mapSet _ _ h.sessionsNodup
    · exact h.macNodup
    · exact nodup_mapKeys_mapDelete _ h.browserNodup
    · intro c' s' hs'
      rw [mapGet_mapSet] at hs'
      by_cases hcc : c' = code
      · rw [if_pos hcc] at hs'
        injection hs' with h2
        rw [← h2, hcc]
        exact h.codeCoherent code s hs
      · rw [if_neg hcc] at hs'
        exact h.codeCoherent c' s' hs'
    · intro c' s' m' hs' hm'
      rw [mapGet_mapSet] at hs'
      by_cases hcc : c' = code
      · rw [if_pos hcc] at hs'
        injection hs' with h2
        rw [← h2] at hm'
        have hm2 : s.mac = some m' := hm'
        rw [hcc]
        exact h.macIndex code s m' hs hm2
      · rw [if_neg hcc] at hs'
        exact h.macIndex c' s' m' hs' hm'
    · intro c' s' b' hs' hb'
      rw [mapGet_mapSet] at hs'
      by_cases hcc : c' = code
      · rw [if_pos hcc] at hs'
        injection hs' with h2
        rw [← h2] at hb'
        have hb2 : (none : Option Socket) = some b' := hb'
        exact absurd hb2 (by simp)
      · rw [if_neg hcc] at hs'
        have hold := h.browserIndex c' s' b' hs' hb'
        by_cases hbb : b' = b
        · rw [hbb, hbg] at hold
          injection hold with h3
          exact absurd h3.symm hcc
        · rw [mapGet_mapDelete_ne _ hbb]
          exact hold
    · intro m' c' hmge
      have hmge2 : mapGet st.macToSession m' = some c' := hmge
      obtain ⟨s2, hs2, hs2m⟩ := h.macBacked m' c' hmge2
      by_cases hcc : c' = code
      · subst hcc
        have hss : s = s2 := by
          rw [hs] at hs2
          injection hs2
        refine ⟨{ s with
                  browser := none
                  expiresAt := .fin (now + SESSION_CODE_EXPIRY_MS) }, ?_, ?_⟩
        · exact mapGet_mapSet_self _ _ _
        · rw [hss]
          exact hs2m
      · refine ⟨s2, ?_, hs2m⟩
        rw [mapGet_mapSet, if_neg hcc]
        exact hs2
    · intro b' c' hbge
      have hbge2 : mapGet (mapDelete st.browserToSession b) b' = some c' := hbge
      by_cases hbb : b' = b
      · rw [hbb, mapGet_mapDelete_self] at hbge2
        exact absurd hbge2 (by simp)
      · rw [mapGet_mapDelete_ne _ hbb] at hbge2
        obtain ⟨s2, hs2, hs2b⟩ := h.browserBacked b' c' hbge2
        by_cases hcc : c' = code
        · subst hcc
          have hss : s = s2 := by
            rw [hs] at hs2
            injection hs2
          rw [← hss] at hs2b
          rw [hsb] at hs2b
          injection hs2b with h3
          exact absurd h3.symm hbb
        · refine ⟨s2, ?_, hs2b⟩
          rw [mapGet_mapSet, if_neg hcc]
          exact hs2
    · intro c' s' hs' hbr'
      rw [mapGet_mapSet] at hs'
      by_cases hcc : c' = code
      · rw [if_pos hcc] at hs'
        injection hs' with h2
        rw [← h2] at hbr'
        exact absurd rfl hbr'
      · rw [if_neg hcc] at hs'
        exact h.joinedNoExpiry c' s' hs' hbr'

theorem inv_sweep_fold (now : Nat) (l : List (String × Session)) :
    ∀ (k : Nat) (st : SessionRegistry), Inv st →
      Inv (l.foldl (sweepStep now) (k, st)).2 := by
  induction l with
  | nil =>
    intro k st h
    exact h
  | cons p rest ih =>
    intro k st h
    rw [List.foldl_cons]
    by_cases hp : p.2.expiresAt.ltNow now
    · rw [show sweepStep now (k, st) p = (k + 1, removeSession p.1 st) from by
        simp [sweepStep, hp]]
      exact ih _ _ (inv_removeSession h p.1)
    · rw [show sweepStep now (k, st) p = (k, st) from by simp [sweepStep, hp]]
      exact ih _ _ h

theorem inv_cleanupExpired {st : SessionRegistry} (h : Inv st) (now : Nat) :
    Inv (cleanupExpired now st).2 := by
  rw [cleanupExpired_eq_foldl]
  exact inv_sweep_fold now st.sessions 0 st h

/-- C10: in every registry state reachable by `createSession`,
`joinSession`, `disconnectBrowser`, `removeSession` and
`cleanupExpired` — with each socket handed to `createSession` /
`joinSession` only while it has no live reverse-index entry, as under
the server's one-session-per-socket discipline — the three maps are
mutually consistent: a session stored under code `c` has `code = c`;
its mac socket (when non-null) maps back to it in the mac reverse
index; its browser socket is non-null exactly when that socket maps
back to it in the browser reverse index; every reverse-index entry
points to a session still present in the code map; and every session
with a non-null browser has `expiresAt = Infinity`. -/
theorem registry_reachable_inv {st : SessionRegistry}
    (h : Reachable st) : Inv st := by
  induction h with
  | empty => exact inv_empty
  | create _ hfresh hc ih => exact inv_createSession ih hfresh hc
  | join _ hfresh ih => exact inv_joinSession ih _ _ _ hfresh
  | disconnect _ ih => exact inv_disconnectBrowser ih _ _
  | remove _ ih => exact inv_removeSession ih _
  | cleanup _ ih => exact inv_cleanupExpired ih _

/-- C10 witness: `demoJoinedRegistry` is reachable (create from the
empty registry, then join), and the theorem yields its invariant. -/
theorem registry_reachable_inv_witness : Inv demoJoinedRegistry := by
  have hcreate : Reachable demoRegistry :=
    @Reachable.create SessionRegistry.empty ["ABC234"] "S1" 0 1 demoSession
      demoRegistry Reachable.empty (by decide) (by decide)
  have hjoin : Reachable (joinSession 50 "ABC234" 7 demoRegistry).2 :=
    Reachable.join hcreate (by decide)
  have heq : (joinSession 50 "ABC234" 7 demoRegistry).2 = demoJoinedRegistry := by
    decide
  rw [heq] at hjoin
  exact registry_reachable_inv hjoin

end IgnisTerm
